import Mathlib

/-!
Verification of the my-manga-recap pipeline core: the timing allocator and
image selection of `src/modules/video_gen.py`, the page-catalog `has_content`
derivation of `src/modules/ocr.py`, and the checkpointed stage runner of
`src/main.py`.  Durations (Python floats) are modelled as exact rationals;
Python strings are modelled as Lean `String`, with the string operations the
code uses (strip, startswith, split) re-implemented structurally over the
character list so that they evaluate on concrete inputs.
-/

namespace MangaRecap

/-- Python `str.isspace` characters relevant to `str.strip` / `str.split`. -/
def pyIsSpace (c : Char) : Bool :=
  c == ' ' || c == '\t' || c == '\n' || c == '\r' || c == '\x0b' || c == '\x0c'

/-- Python `s.startswith(p)` on character lists. -/
def startsWithL (s p : List Char) : Bool :=
  p.isPrefixOf s

/-- Python `s.strip()`: drop leading and trailing whitespace. -/
def pyStrip (s : List Char) : List Char :=
  ((s.dropWhile pyIsSpace).reverse.dropWhile pyIsSpace).reverse

/-- Python `s.split(sep)` for a single-character separator (used as `split('\n')`). -/
def splitOnChar (sep : Char) : List Char → List (List Char)
  | [] => [[]]
  | c :: rest =>
      let tails := splitOnChar sep rest
      if c == sep then [] :: tails
      else match tails with
        | [] => [[c]]
        | t :: ts => (c :: t) :: ts

/-- Number of maximal non-whitespace runs: Python `len(s.split())`. -/
def wordCountAux : List Char → Bool → Nat
  | [], _ => 0
  | c :: rest, inWord =>
      if pyIsSpace c then wordCountAux rest false
      else if inWord then wordCountAux rest true
      else 1 + wordCountAux rest true

def wordCountL (s : List Char) : Nat :=
  wordCountAux s false

/-- The segment-accumulation loop of `_calculate_text_timing`
(`src/modules/video_gen.py` lines 16-28): for each line, strip it; a line
starting with `[PAUSA` flushes the current segment; a non-empty line not
starting with `[` is appended to the current segment as `" " + line`; the
final non-empty segment is flushed at the end. -/
def segmentsAux : List (List Char) → List Char → List (List Char)
  | [], current => if current.isEmpty then [] else [current]
  | rawLine :: rest, current =>
      let line := pyStrip rawLine
      if startsWithL line "[PAUSA".data then
        if current.isEmpty then segmentsAux rest []
        else current :: segmentsAux rest []
      else if !line.isEmpty && !startsWithL line "[".data then
        segmentsAux rest (current ++ ' ' :: line)
      else
        segmentsAux rest current

/-- Pause-delimited segments of a script: `script.split('\n')` fed to the
accumulation loop. -/
def segmentsOf (script : String) : List (List Char) :=
  segmentsAux (splitOnChar '\n' script.data) []

/-- `_calculate_text_timing` (`src/modules/video_gen.py` lines 10-45):
empty segment list gives `[]`; total word count `0` splits `total_duration`
evenly; otherwise each segment gets `(words / total_words) * total_duration`
with a `0.5` floor. -/
def calcTextTiming (script : String) (total_duration : ℚ) : List ℚ :=
  let segments := segmentsOf script
  if segments.isEmpty then []
  else
    let text_lengths := segments.map wordCountL
    let total_words := text_lengths.sum
    if total_words == 0 then
      List.replicate segments.length (total_duration / segments.length)
    else
      text_lengths.map fun wc =>
        max (((wc : ℕ) : ℚ) / (total_words : ℚ) * total_duration) (1/2)

/-- Images allotted to segment `i` in `create_video`
(`src/modules/video_gen.py` lines 136-142):
`images_per_segment + (1 if i < remainder else 0)`. -/
def numImagesForSegment (nImages nSegments i : Nat) : Nat :=
  nImages / nSegments + (if i < nImages % nSegments then 1 else 0)

/-- The intelligent-mode timing loop (`src/modules/video_gen.py` lines
136-148): each segment contributes `num_images` copies of
`segment_duration / num_images` (nothing when `num_images = 0`). -/
def intelligentTimings (text_timings : List ℚ) (nImages : Nat) : List ℚ :=
  ((List.range text_timings.length).zip text_timings).flatMap fun p =>
    let n := numImagesForSegment nImages text_timings.length p.1
    List.replicate n (p.2 / (n : ℚ))

/-- The timing-strategy block of `create_video` (`src/modules/video_gen.py`
lines 116-155): fixed-duration mode with uniform scale-down when the naive
total exceeds the audio duration; otherwise intelligent mode from the script
segments; uniform fallback when no segments exist. -/
def computeTimings (image_duration : Option ℚ) (script : String)
    (nImages : Nat) (total_duration : ℚ) : List ℚ :=
  match image_duration with
  | some fixed =>
      if fixed * (nImages : ℚ) > total_duration then
        List.replicate nImages (total_duration / (nImages : ℚ))
      else
        List.replicate nImages fixed
  | none =>
      let text_timings := calcTextTiming script total_duration
      if text_timings.length > 0 then
        intelligentTimings text_timings nImages
      else
        List.replicate nImages (total_duration / (nImages : ℚ))

/-- The duration-reconciliation step of `create_video`
(`src/modules/video_gen.py` lines 208-223): a clip-stream/audio mismatch
beyond `0.1` is corrected by trimming to, or extending the last clip up to,
exactly the audio duration. -/
def reconcileDuration (videoDuration audioDuration : ℚ) : ℚ :=
  if |videoDuration - audioDuration| > 1/10 then audioDuration
  else videoDuration

/-! ## Page records and image selection -/

/-- `has_content` as derived in `extract_text_from_chapter`
(`src/modules/ocr.py` line 46): `text and not text.startswith("[")`. -/
def mkHasContent (text : String) : Bool :=
  text != "" && !startsWithL text.data "[".data

/-- The sentinel marker strings produced by `extract_text_from_image`
(`src/modules/ocr.py` lines 14 and 17): the exact empty-page marker, and the
error marker prefix. -/
def isSentinelText (text : String) : Bool :=
  text == "[Página vazia]" || startsWithL text.data "[Erro ao processar:".data

/-- The per-image data `create_video` recovers for a page from the OCR
catalog: its file name, OCR text, and `has_content` flag (defaults `""` and
`false` when the catalog has no entry for the image). -/
structure PageInfo where
  image_file : String
  text : String
  has_content : Bool
deriving DecidableEq, Repr

/-- The content filter of `create_video` (`src/modules/video_gen.py` line
100): `has_content and page_text and not page_text.startswith("[Página
vazia]") and not page_text.startswith("[Erro ao processar")`. -/
def pageSelected (p : PageInfo) : Bool :=
  p.has_content && p.text != "" &&
    !startsWithL p.text.data "[Página vazia]".data &&
    !startsWithL p.text.data "[Erro ao processar".data

/-- Images admitted to the video, in chapter/file order. -/
def selectImages (pages : List PageInfo) : List PageInfo :=
  pages.filter pageSelected

/-- Outcome of `create_video` relevant to the claims: the timing plan and
the reconciled final video duration. -/
structure VideoResult where
  timings : List ℚ
  videoDuration : ℚ
deriving Repr

/-- `create_video` (`src/modules/video_gen.py`): select contentful images,
fail when none remain, otherwise compute the timing plan and reconcile the
concatenated duration against the audio duration. -/
def createVideoPlan (pages : List PageInfo) (image_duration : Option ℚ)
    (script : String) (audioDuration : ℚ) : Except String VideoResult :=
  if (selectImages pages).isEmpty then
    Except.error "No images with content found in chapter directories"
  else
    Except.ok
      { timings := computeTimings image_duration script (selectImages pages).length audioDuration
        videoDuration := reconcileDuration
          (computeTimings image_duration script (selectImages pages).length audioDuration).sum
          audioDuration }

/-! ## Checkpointed stage runner (`src/main.py`) -/

/-- The four pipeline stages of `main`. -/
inductive Stage
  | ocr
  | scripts
  | audio
  | video
deriving DecidableEq, Repr

def allStages : List Stage := [Stage.ocr, Stage.scripts, Stage.audio, Stage.video]

/-- The in-memory checkpoint dict: an empty dict models `{}` (no
`last_step` key). -/
structure Checkpoint where
  last_step : Option String
deriving DecidableEq, Repr

def emptyCheckpoint : Checkpoint := ⟨none⟩

/-- The `last_step` marker written by `save_checkpoint` for each stage. -/
def stageMarker : Stage → String
  | Stage.ocr => "ocr"
  | Stage.scripts => "scripts"
  | Stage.audio => "audio"
  | Stage.video => "video"

/-- The membership list of each stage-skip test in `main`
(`src/main.py` lines 118, 154, 176, 191): which `last_step` values mark the
stage as already completed. -/
def doneMarkers : Stage → List String
  | Stage.ocr => ["ocr", "scripts", "audio", "video"]
  | Stage.scripts => ["scripts", "audio", "video"]
  | Stage.audio => ["audio", "video"]
  | Stage.video => ["video"]

/-- `checkpoint.get("last_step") in [...]`: the checkpoint marks the stage
as completed. -/
def stageMarkedDone (cp : Checkpoint) (s : Stage) : Bool :=
  match cp.last_step with
  | some m => (doneMarkers s).contains m
  | none => false

/-- The stage-skip condition of `main`: checkpoint marks the stage done AND
its artifact file exists (`src/main.py` lines 118, 154, 176, 191). -/
def skipStage (cp : Checkpoint) (s : Stage) (artifactExists : Bool) : Bool :=
  stageMarkedDone cp s && artifactExists

/-- The stages `main` executes (in order), given the loaded checkpoint and
which artifact files exist on disk; a non-skipped stage is recomputed. -/
def runStages (cp : Checkpoint) (artifactExists : Stage → Bool) : List Stage :=
  allStages.filter fun s => !skipStage cp s (artifactExists s)

/-- `load_checkpoint` (`src/main.py` lines 21-32): returns the parsed
checkpoint when the file exists and parses, and `{}` when the file is
missing or any exception occurs while reading/parsing (`parsed = none`). -/
def load_checkpoint (fileExists : Bool) (parsed : Option Checkpoint) : Checkpoint :=
  if fileExists then
    match parsed with
    | some cp => cp
    | none => emptyCheckpoint
  else emptyCheckpoint

/-- The checkpoint-file state after `main` runs to successful completion
(`src/main.py` lines 88-232): each executed stage ends with
`save_checkpoint` overwriting the file with its marker; `main` never calls
`delete_checkpoint`, so no stage removes the file. -/
def checkpointFileAfterMain (cp : Checkpoint) (initialFile : Option Checkpoint)
    (artifactExists : Stage → Bool) : Option Checkpoint :=
  allStages.foldl
    (fun fileState s =>
      if skipStage cp s (artifactExists s) then fileState
      else some ⟨some (stageMarker s)⟩)
    initialFile

/-! ## Checkpoint write atomicity (`save_checkpoint`, `src/main.py` 35-49) -/

/-- File-system operations relevant to checkpoint persistence. -/
inductive FsOp
  | write (path content : String)
  | rename (src dst : String)
deriving DecidableEq, Repr

def checkpointFileName : String := "video_checkpoint.json"

/-- The file operations `save_checkpoint` performs (`src/main.py` lines
44-46): a single direct `open(checkpoint_file, "w")` + `json.dump` at the
checkpoint path. -/
def save_checkpoint_ops (payload : String) : List FsOp :=
  [FsOp.write checkpointFileName payload]

/-- Modelled from the spec: "written atomically (write-to-temp-then-rename,
or equivalent)" — no write ever targets the final path directly, and the
final path is produced by renaming some temporary file onto it. -/
def IsAtomicWrite (ops : List FsOp) (target : String) : Prop :=
  (∀ p c, FsOp.write p c ∈ ops → p ≠ target) ∧
  ∃ tmp, FsOp.rename tmp target ∈ ops

/-- A mid-write interruption of `ops` can leave exactly this content at
`target`: some prefix of a payload directly written there. -/
def CanBeLeftAtTarget (ops : List FsOp) (target pre : String) : Prop :=
  ∃ c, FsOp.write target c ∈ ops ∧ startsWithL c.data pre.data = true

/-! ## Helper lemmas -/

lemma sum_map_range_succ (f : ℕ → ℕ) (L : ℕ) :
    ((List.range (L + 1)).map f).sum = ((List.range L).map f).sum + f L := by
  rw [List.range_succ]
  simp

lemma sum_const_add_indicator (q r L : ℕ) :
    ((List.range L).map (fun i => q + if i < r then 1 else 0)).sum
      = L * q + min r L := by
  induction L with
  | zero => simp
  | succ L ih =>
      rw [sum_map_range_succ, ih, Nat.succ_mul]
      by_cases h : L < r <;> simp [h] <;> omega

lemma numImages_sum (n L : ℕ) (hL : 0 < L) :
    ((List.range L).map (numImagesForSegment n L)).sum = n := by
  unfold numImagesForSegment
  rw [sum_const_add_indicator]
  have hmod : n % L < L := Nat.mod_lt n hL
  have := Nat.div_add_mod n L
  omega

lemma intelligentTimings_length (tt : List ℚ) (n : ℕ) (h : tt ≠ []) :
    (intelligentTimings tt n).length = n := by
  have hlen : (intelligentTimings tt n).length
      = (((List.range tt.length).zip tt).map fun p =>
          numImagesForSegment n tt.length p.1).sum := by
    simp [intelligentTimings, Function.comp_def]
  rw [hlen]
  have hfst : (((List.range tt.length).zip tt).map fun p => numImagesForSegment n tt.length p.1)
      = (((List.range tt.length).zip tt).map Prod.fst).map (numImagesForSegment n tt.length) := by
    rw [List.map_map]
    rfl
  rw [hfst, List.map_fst_zip _ _ (by simp)]
  exact numImages_sum n tt.length (List.length_pos.mpr h)

lemma reconcile_within (s D : ℚ) : |reconcileDuration s D - D| ≤ 1/10 := by
  unfold reconcileDuration
  split
  · simp
  · next hd => exact le_of_not_lt hd

/-! ## Claims -/

/-- C1, counterexample: in fixed-duration mode with `image_duration = 1`,
one contentful image and audio duration `10`, the allocator's timing plan
sums to `1`, which differs from the audio duration by more than `0.1`. -/
theorem timing_plan_sum_counterexample :
    |(computeTimings (some 1) "" 1 10).sum - 10| > 1/10 := by
  have h : computeTimings (some 1) "" 1 10 = [1] := by
    norm_num [computeTimings, List.replicate]
  rw [h]
  simp only [List.sum_cons, List.sum_nil, add_zero]
  rw [abs_sub_comm, abs_of_nonneg (by norm_num : (0 : ℚ) ≤ 10 - 1)]
  norm_num

/-- C1 (amended): the allocator's timing plan may sum to a value further
than `0.1` from the audio duration; the `0.1` tolerance instead holds for
the final video duration produced by `create_video` after its
trim-or-extend reconciliation step. -/
theorem final_duration_within_tolerance (pages : List PageInfo) (dur : Option ℚ)
    (script : String) (D : ℚ) (r : VideoResult)
    (h : createVideoPlan pages dur script D = Except.ok r) :
    |r.videoDuration - D| ≤ 1/10 := by
  unfold createVideoPlan at h
  split at h
  · exact absurd h (by simp)
  · simp only [Except.ok.injEq] at h
    subst h
    exact reconcile_within _ _

/-- C1, witness for the amended theorem at a concrete run: one contentful
image, fixed duration `1`, audio duration `10`. -/
theorem final_duration_within_tolerance_witness :
    |((⟨[1], 10⟩ : VideoResult)).videoDuration - 10| ≤ 1/10 := by
  refine final_duration_within_tolerance [⟨"p1.png", "hi", true⟩] (some 1) "" 10
    ⟨[1], 10⟩ ?_
  have hsel : selectImages [⟨"p1.png", "hi", true⟩] = [⟨"p1.png", "hi", true⟩] := by
    decide
  have ht : computeTimings (some 1) "" 1 10 = [1] := by
    norm_num [computeTimings, List.replicate]
  have habs : |(1 : ℚ) - 10| > 1/10 := by
    rw [abs_sub_comm, abs_of_nonneg (by norm_num : (0 : ℚ) ≤ 10 - 1)]
    norm_num
  have hrec : reconcileDuration 1 10 = 10 := by
    unfold reconcileDuration
    rw [if_pos habs]
  simp only [createVideoPlan, hsel, List.isEmpty_cons, List.length_cons,
    List.length_nil, ht, List.sum_cons, List.sum_nil, add_zero, hrec]
  rfl

/-- C2: in intelligent mode with a non-empty segment list, segment `i`
receives `floor(N/S)` images plus one extra exactly when
`i < N mod S` (so the earliest segments get the extras), the per-segment
counts sum to `N`, and the resulting timing plan has exactly one entry per
image — every image is assigned to exactly one segment. -/
theorem images_distributed_by_index (tt : List ℚ) (n : ℕ) (h : tt ≠ []) :
    ((List.range tt.length).map (numImagesForSegment n tt.length)).sum = n ∧
    (∀ i, n / tt.length ≤ numImagesForSegment n tt.length i) ∧
    (∀ i, numImagesForSegment n tt.length i = n / tt.length + 1 ↔ i < n % tt.length) ∧
    (intelligentTimings tt n).length = n := by
  have hL : 0 < tt.length := List.length_pos.mpr h
  refine ⟨numImages_sum n tt.length hL, ?_, ?_, intelligentTimings_length tt n h⟩
  · intro i
    unfold numImagesForSegment
    omega
  · intro i
    unfold numImagesForSegment
    by_cases hi : i < n % tt.length <;> simp [hi]

/-- C2, witness: two segments of durations `10` and `30`, eight images:
the timing plan has exactly eight entries. -/
theorem images_distributed_by_index_witness :
    (intelligentTimings [(10 : ℚ), 30] 8).length = 8 :=
  (images_distributed_by_index [(10 : ℚ), 30] 8 (by simp)).2.2.2

/-- C3: with a fixed image duration, every image gets exactly that duration
when `fixed × N ≤ total_duration`; otherwise every image is scaled down
uniformly to `total_duration / N`, so the plan sums to the audio
duration. -/
theorem fixed_duration_scaling (fixed D : ℚ) (n : ℕ) (script : String) (hn : 0 < n) :
    (fixed * n ≤ D → computeTimings (some fixed) script n D = List.replicate n fixed) ∧
    (D < fixed * n →
      computeTimings (some fixed) script n D = List.replicate n (D / n) ∧
      (computeTimings (some fixed) script n D).sum = D) := by
  constructor
  · intro hle
    simp only [computeTimings]
    rw [if_neg (not_lt.mpr hle)]
  · intro hgt
    simp only [computeTimings]
    rw [if_pos hgt]
    refine ⟨rfl, ?_⟩
    have hn0 : (n : ℚ) ≠ 0 := Nat.cast_ne_zero.mpr hn.ne'
    rw [List.sum_replicate, nsmul_eq_mul]
    field_simp

/-- C3, witness: the spec scenario — fixed duration `5`, ten images, audio
duration `30` — scales every image down to `3` seconds. -/
theorem fixed_duration_scaling_witness :
    computeTimings (some 5) "" 10 30 = List.replicate 10 3 := by
  have h := (fixed_duration_scaling 5 30 10 "" (by norm_num)).2 (by norm_num)
  rw [h.1]
  norm_num

/-- C4 (code bug): `main` never calls `delete_checkpoint`, so a fresh fully
successful run ends with the checkpoint file still present, recording
`last_step = "video"`, instead of being deleted. -/
theorem checkpoint_survives_successful_run :
    checkpointFileAfterMain emptyCheckpoint none (fun _ => false)
        = some ⟨some "video"⟩ ∧
    checkpointFileAfterMain emptyCheckpoint none (fun _ => false) ≠ none := by
  refine ⟨by decide, by decide⟩

/-- C5: a stage is absent from the stages `main` executes exactly when the
checkpoint marks it done AND its artifact file exists; in particular a
stage marked done whose artifact is missing is re-executed (the model is
total, so no error is raised). -/
theorem stage_skip_requires_artifact (cp : Checkpoint) (ex : Stage → Bool) (s : Stage) :
    (s ∉ runStages cp ex ↔ (stageMarkedDone cp s = true ∧ ex s = true)) ∧
    (stageMarkedDone cp s = true → ex s = false → s ∈ runStages cp ex) := by
  have hmem : s ∈ allStages := by cases s <;> simp [allStages]
  have key : s ∉ runStages cp ex ↔ (stageMarkedDone cp s = true ∧ ex s = true) := by
    simp [runStages, List.mem_filter, hmem, skipStage]
  refine ⟨key, fun hm he => ?_⟩
  by_contra hns
  have h2 := key.mp hns
  exact Bool.false_ne_true (he ▸ h2.2)

/-- C5, witness: checkpoint claims `scripts` done, no artifact exists — the
scripts stage is among the re-executed stages. -/
theorem stage_skip_requires_artifact_witness :
    Stage.scripts ∈ runStages ⟨some "scripts"⟩ (fun _ => false) :=
  (stage_skip_requires_artifact ⟨some "scripts"⟩ (fun _ => false) Stage.scripts).2
    (by decide) rfl

/-- C6, counterexample: `save_checkpoint` is not an atomic
write-to-temp-then-rename — it writes the checkpoint path directly and
performs no rename. -/
theorem save_checkpoint_not_atomic :
    ¬ IsAtomicWrite (save_checkpoint_ops "checkpoint-data") checkpointFileName := by
  rintro ⟨-, tmp, hmem⟩
  simp [save_checkpoint_ops] at hmem

/-- C6 (amended): `save_checkpoint` performs a single direct write of the
payload at the checkpoint path; it is not atomic in the spec's sense, and a
mid-write interruption can leave any prefix of the payload at the
checkpoint path. -/
theorem save_checkpoint_direct_write (payload pre : String)
    (hpre : startsWithL payload.data pre.data = true) :
    save_checkpoint_ops payload = [FsOp.write checkpointFileName payload] ∧
    ¬ IsAtomicWrite (save_checkpoint_ops payload) checkpointFileName ∧
    CanBeLeftAtTarget (save_checkpoint_ops payload) checkpointFileName pre := by
  refine ⟨rfl, ?_, ⟨payload, by simp [save_checkpoint_ops], hpre⟩⟩
  rintro ⟨-, tmp, hmem⟩
  simp [save_checkpoint_ops] at hmem

/-- C6, witness for the amended theorem on a concrete payload and prefix. -/
theorem save_checkpoint_direct_write_witness :
    save_checkpoint_ops "abc" = [FsOp.write checkpointFileName "abc"] ∧
    ¬ IsAtomicWrite (save_checkpoint_ops "abc") checkpointFileName ∧
    CanBeLeftAtTarget (save_checkpoint_ops "abc") checkpointFileName "ab" :=
  save_checkpoint_direct_write "abc" "ab" (by decide)

/-- C7, counterexample: the text `"[a]"` is non-empty and is not a sentinel
marker, yet `has_content` is false for it — the claimed iff fails. -/
theorem has_content_iff_fails :
    ¬ (mkHasContent "[a]" = true ↔ ("[a]" ≠ "" ∧ isSentinelText "[a]" = false)) := by
  decide

/-- C7 (amended): `has_content` is true iff the extracted text is non-empty
and does not start with the character `[`; every sentinel marker starts
with `[`, so sentinels always get `has_content = false`, but so does any
genuine text beginning with `[`. -/
theorem has_content_bracket_rule (t : String) :
    (mkHasContent t = true ↔ (t ≠ "" ∧ startsWithL t.data "[".data = false)) ∧
    (isSentinelText t = true → mkHasContent t = false) := by
  constructor
  · simp [mkHasContent, Bool.and_eq_true, bne_iff_ne, Bool.not_eq_true']
  · intro hs
    have hb : startsWithL t.data "[".data = true := by
      have hs2 : t = "[Página vazia]" ∨
          startsWithL t.data "[Erro ao processar:".data = true := by
        simpa [isSentinelText] using hs
      rcases hs2 with h | h
      · subst h
        decide
      · have h1 : "[Erro ao processar:".data <+: t.data :=
          List.isPrefixOf_iff_prefix.mp h
        have h2 : "[".data <+: "[Erro ao processar:".data :=
          List.isPrefixOf_iff_prefix.mp (by decide)
        exact List.isPrefixOf_iff_prefix.mpr (h2.trans h1)
    simp [mkHasContent, hb]

/-- C7, witness: the empty-page sentinel gets `has_content = false`. -/
theorem has_content_bracket_rule_witness :
    mkHasContent "[Página vazia]" = false :=
  (has_content_bracket_rule "[Página vazia]").2 (by decide)

/-- C8: when image selection yields no contentful image, `create_video`
fails with the no-content-images error and never returns a video result. -/
theorem no_content_images_error (pages : List PageInfo) (dur : Option ℚ)
    (script : String) (D : ℚ) (h : selectImages pages = []) :
    createVideoPlan pages dur script D
        = Except.error "No images with content found in chapter directories" ∧
    ∀ r : VideoResult, createVideoPlan pages dur script D ≠ Except.ok r := by
  have key : createVideoPlan pages dur script D
      = Except.error "No images with content found in chapter directories" := by
    simp [createVideoPlan, h]
  exact ⟨key, fun r hc => by rw [key] at hc; exact Except.noConfusion hc⟩

/-- C8, witness: a single empty-page image yields the error. -/
theorem no_content_images_error_witness :
    createVideoPlan [⟨"p1.png", "[Página vazia]", false⟩] none "" 10
        = Except.error "No images with content found in chapter directories" :=
  (no_content_images_error [⟨"p1.png", "[Página vazia]", false⟩] none "" 10
    (by decide)).1

/-- C9: for a script with at least one pause-delimited segment, when the
total word count is positive each segment's duration is
`(segment words / total words) × total_duration` floored at `0.5`; when the
total word count is zero the total duration is split evenly. -/
theorem segment_duration_allocation (script : String) (D : ℚ)
    (h : segmentsOf script ≠ []) :
    (0 < ((segmentsOf script).map wordCountL).sum →
      calcTextTiming script D = (segmentsOf script).map fun s =>
        max ((wordCountL s : ℚ) / (((segmentsOf script).map wordCountL).sum : ℚ) * D)
          (1/2)) ∧
    (((segmentsOf script).map wordCountL).sum = 0 →
      calcTextTiming script D
        = List.replicate (segmentsOf script).length
            (D / ((segmentsOf script).length : ℚ))) := by
  have he : (segmentsOf script).isEmpty = false := by
    simpa [List.isEmpty_iff] using h
  constructor
  · intro hpos
    have hne : (((segmentsOf script).map wordCountL).sum == 0) = false := by
      simpa using (Nat.pos_iff_ne_zero.mp hpos)
    simp only [calcTextTiming, he, Bool.false_eq_true, if_false, hne, List.map_map]
    rfl
  · intro hz
    simp only [calcTextTiming, he, Bool.false_eq_true, if_false, hz]
    simp

/-- C9, witness: a script with segments of word counts `1` and `3` and
audio duration `40` allocates `10` and `30` seconds. -/
theorem segment_duration_allocation_witness :
    calcTextTiming "one\n[PAUSA 1]\naaa bbb ccc" 40 = [10, 30] := by
  rw [(segment_duration_allocation "one\n[PAUSA 1]\naaa bbb ccc" 40
    (by decide)).1 (by decide)]
  have hsegs : segmentsOf "one\n[PAUSA 1]\naaa bbb ccc"
      = [" one".data, " aaa bbb ccc".data] := by decide
  have hw1 : wordCountL " one".data = 1 := by decide
  have hw2 : wordCountL " aaa bbb ccc".data = 3 := by decide
  rw [hsegs]
  simp only [List.map_cons, List.map_nil, List.sum_cons, List.sum_nil, hw1, hw2]
  norm_num [max_def]

/-- C10: an existing checkpoint file that fails to read or parse loads as
the empty checkpoint, and with the empty checkpoint every stage is
executed — the run proceeds from the first stage rather than aborting. -/
theorem corrupt_checkpoint_yields_fresh_run (ex : Stage → Bool) :
    load_checkpoint true none = emptyCheckpoint ∧
    runStages (load_checkpoint true none) ex = allStages := by
  exact ⟨rfl, rfl⟩

/-- C10, witness: with all artifacts present but an unparsable checkpoint,
all four stages still run. -/
theorem corrupt_checkpoint_yields_fresh_run_witness :
    runStages (load_checkpoint true none) (fun _ => true) = allStages :=
  (corrupt_checkpoint_yields_fresh_run (fun _ => true)).2

end MangaRecap
